import Mathlib

/-!
# Verification of the subdomain-finder reconnaissance core

A shallow embedding, in Lean 4, of the core components of the
subdomain-finder repository: the lazy-refill token-bucket rate limiter
and retry/backoff machinery (internal/logger/logger.go, packages
`limiter`), the per-candidate probe pipeline, risk scorer and
confidence model (internal/screenshot/capture.go, package `finder`),
the admission-gated scheduler (`Finder.Find`), and the scan entry
point (`cmd.runScan`) together with the declared configuration
validation ranges (internal/config/config.go).

Go machine integers (`int`, `int64`, `time.Duration`) are modelled as
`Int`; where 64-bit overflow matters (the exponential backoff shift
and multiplication) the wrap-around is made explicit via `wrap64`.
Go integer division (`/` on integers, truncation toward zero) is
`Int.tdiv`.  Wall-clock instants are `Int` nanoseconds.  Network and
clock effects are passed in explicitly as oracle functions, and
fallible Go calls (`..., err := f(...)`) become `Option`-valued
oracles (`none` = the call returned a non-nil error).
-/

namespace SubdomainFinder

/-- Two's-complement wrap of a mathematical integer into the `int64`
range `[-2^63, 2^63)`, as Go arithmetic on `time.Duration` behaves. -/
def wrap64 (x : Int) : Int := (x + 2 ^ 63) % 2 ^ 64 - 2 ^ 63

/-- Go `1 << sh` at type `int64` (`time.Duration`): `2^sh` wrapped to
`int64` for `sh < 64`, and `0` once every bit has been shifted out. -/
def goShl1 (sh : Nat) : Int := if sh < 64 then wrap64 (2 ^ sh) else 0

namespace Limiter

/-- `limiter.RateLimiter` (internal/logger/logger.go): `rate` is the
maximum token count, `interval` the refill interval, `tokens` the
current count and `lastTime` the nanosecond timestamp of the last
refill.  The `sync.Mutex` only serialises calls and has no state
visible to the embedding. -/
structure RateLimiter where
  rate : Int
  interval : Int
  tokens : Int
  lastTime : Int
deriving Repr, DecidableEq

/-- `limiter.NewRateLimiter`: starts with a full bucket and
`lastTime = time.Now()` (passed in as `now`). -/
def NewRateLimiter (rate interval now : Int) : RateLimiter :=
  { rate := rate, interval := interval, tokens := rate, lastTime := now }

/-- Return value of `Wait`: `ok` is a nil error, `cancelled` is the
context's error (`ctx.Err()`). -/
inductive WaitOutcome where
  | ok
  | cancelled
deriving Repr, DecidableEq

/-- The environment of one `Wait` call: `now` is `time.Now()` at
entry; when the call reaches the `select`, `cancelFirst` tells whether
`ctx.Done()` fires before `time.After(waitTime)`, and `nowAfter` is
the `time.Now()` read after the timer fires. -/
structure WaitEnv where
  now : Int
  cancelFirst : Bool
  nowAfter : Int
deriving Repr, DecidableEq

/-- `limiter.RateLimiter.Wait`, translated line by line:
lazy refill (`tokensToAdd = elapsed / interval`, Go truncating
division), immediate consume when a token is available, otherwise a
`select` on cancellation versus `time.After(waitTime)` — but only when
`waitTime > 0`; when `waitTime ≤ 0` the code falls through and returns
nil without touching the state. -/
def RateLimiter.Wait (rl : RateLimiter) (env : WaitEnv) : RateLimiter × WaitOutcome :=
  let elapsed := env.now - rl.lastTime
  let tokensToAdd := Int.tdiv elapsed rl.interval
  let rl1 := if tokensToAdd > 0 then
      { rl with tokens := min (rl.tokens + tokensToAdd) rl.rate, lastTime := env.now }
    else rl
  if rl1.tokens > 0 then
    ({ rl1 with tokens := rl1.tokens - 1 }, WaitOutcome.ok)
  else
    let waitTime := rl.interval - elapsed
    if waitTime > 0 then
      if env.cancelFirst then
        (rl1, WaitOutcome.cancelled)
      else
        ({ rl1 with tokens := rl1.rate - 1, lastTime := env.nowAfter }, WaitOutcome.ok)
    else
      (rl1, WaitOutcome.ok)

/-- The `Wait` algorithm exactly as the specification claim words it:
refill with `tokensToAdd = floor(elapsed / interval)`, consume if a
token is available, and **otherwise always block** for
`waitTime = interval - elapsed` (cancellation may fire first; on
expiry set `tokens = rate - 1`, `lastRefill = now`).  Written from the
claim, to be compared with `RateLimiter.Wait` above. -/
def RateLimiter.waitClaimed (rl : RateLimiter) (env : WaitEnv) : RateLimiter × WaitOutcome :=
  let elapsed := env.now - rl.lastTime
  let tokensToAdd := Int.fdiv elapsed rl.interval
  let rl1 := if tokensToAdd > 0 then
      { rl with tokens := min (rl.tokens + tokensToAdd) rl.rate, lastTime := env.now }
    else rl
  if rl1.tokens > 0 then
    ({ rl1 with tokens := rl1.tokens - 1 }, WaitOutcome.ok)
  else if env.cancelFirst then
    (rl1, WaitOutcome.cancelled)
  else
    ({ rl1 with tokens := rl1.rate - 1, lastTime := env.nowAfter }, WaitOutcome.ok)

/-- `limiter.RateLimiter.SetRate`: replaces `rate` only; `tokens` is
not clamped. -/
def RateLimiter.SetRate (rl : RateLimiter) (rate : Int) : RateLimiter :=
  { rl with rate := rate }

/-- `limiter.RateLimiter.GetRate`. -/
def RateLimiter.GetRate (rl : RateLimiter) : Int := rl.rate

/-- The state invariant claimed by the spec: `tokens ∈ [0, rate]`. -/
def tokensInv (rl : RateLimiter) : Prop := 0 ≤ rl.tokens ∧ rl.tokens ≤ rl.rate

instance (rl : RateLimiter) : Decidable (tokensInv rl) := by
  unfold tokensInv
  infer_instance

/-- `limiter.LinearBackoff`: `GetDelay(attempt) = BaseDelay * attempt`
(int64 multiplication, hence wrapped). -/
structure LinearBackoff where
  BaseDelay : Int
deriving Repr, DecidableEq

/-- `limiter.LinearBackoff.GetDelay`. -/
def LinearBackoff.GetDelay (lb : LinearBackoff) (attempt : Int) : Int :=
  wrap64 (lb.BaseDelay * attempt)

/-- `limiter.ExponentialBackoff`: base delay and cap, both
`time.Duration` (int64 nanoseconds). -/
structure ExponentialBackoff where
  BaseDelay : Int
  MaxDelay : Int
deriving Repr, DecidableEq

/-- `limiter.ExponentialBackoff.GetDelay`:
`delay := BaseDelay * Duration(1 << uint(attempt-1))`, then capped at
`MaxDelay` from above only.  `uint(attempt-1)` reduces the shift count
modulo `2^64`; the shift and the multiplication wrap at 64 bits
exactly as Go `time.Duration` arithmetic does. -/
def ExponentialBackoff.GetDelay (eb : ExponentialBackoff) (attempt : Int) : Int :=
  let sh := ((attempt - 1) % 2 ^ 64).toNat
  let delay := wrap64 (eb.BaseDelay * goShl1 sh)
  if delay > eb.MaxDelay then eb.MaxDelay else delay

/-- Result of one `Retryer` run: `ok` is a nil error, `ctxErr` is the
context's cancellation error returned from an aborted backoff sleep,
`lastErr e` is the last error observed from `fn` after all attempts
failed. -/
inductive RetryOut (ε : Type) where
  | ok
  | ctxErr
  | lastErr (e : ε)
deriving Repr, DecidableEq

/-- Observable trace of `limiter.Retryer.Execute`: the returned error
(`out`), the attempt indices at which `fn` was invoked (`calls`, in
order), and the attempt indices before which a backoff sleep completed
(`sleeps`).  The slept duration (`config.Backoff.GetDelay(attempt)`)
never influences control flow, so it is not recorded. -/
structure RetryTrace (ε : Type) where
  out : RetryOut ε
  calls : List Nat
  sleeps : List Nat
deriving Repr, DecidableEq

/-- The `for attempt := 0; attempt <= maxRetries; attempt++` loop body
of `limiter.Retryer.Execute`.  `fuel` is the number of loop iterations
left (`maxRetries + 1 - attempt`), `last` the recorded `lastErr`.
`cancelAt k = true` means the context is already cancelled when the
sleep before attempt `k` runs (so the `select` aborts the retry);
`fn k` is the outcome of the `k`-th invocation of the operation
(`none` = nil error). -/
def executeAux {ε : Type} (cancelAt : Nat → Bool) (fn : Nat → Option ε) :
    Nat → Nat → Option ε → RetryTrace ε
  | _, 0, last =>
    ⟨match last with | some e => RetryOut.lastErr e | none => RetryOut.ok, [], []⟩
  | attempt, fuel + 1, _ =>
    if 0 < attempt ∧ cancelAt attempt then ⟨RetryOut.ctxErr, [], []⟩
    else
      match fn attempt with
      | none => ⟨RetryOut.ok, [attempt], if 0 < attempt then [attempt] else []⟩
      | some e =>
        let rest := executeAux cancelAt fn (attempt + 1) fuel (some e)
        ⟨rest.out, attempt :: rest.calls, (if 0 < attempt then [attempt] else []) ++ rest.sleeps⟩

/-- `limiter.Retryer.Execute` with `config.MaxRetries = maxRetries`
(the claim's range `maxRetries ≥ 0`; a negative Go `MaxRetries` would
skip the loop entirely). -/
def Retryer.Execute {ε : Type} (cancelAt : Nat → Bool) (fn : Nat → Option ε)
    (maxRetries : Nat) : RetryTrace ε :=
  executeAux cancelAt fn 0 (maxRetries + 1) none

/-- Observable trace of `limiter.Retryer.ExecuteWithResult`: as
`RetryTrace` plus the returned value of type `T`. -/
structure RetryTraceR (α ε : Type) where
  out : RetryOut ε
  value : α
  calls : List Nat
deriving Repr, DecidableEq

/-- The loop of `limiter.Retryer.ExecuteWithResult`: like
`executeAux`, but each invocation yields `(res, err)`; on failure the
partial value `res` is recorded and returned alongside the final
error.  `cur` is the current `result` variable (zero value at entry). -/
def executeWRAux {α ε : Type} (cancelAt : Nat → Bool) (fn : Nat → α × Option ε) :
    Nat → Nat → α → Option ε → RetryTraceR α ε
  | _, 0, cur, last =>
    ⟨match last with | some e => RetryOut.lastErr e | none => RetryOut.ok, cur, []⟩
  | attempt, fuel + 1, cur, _ =>
    if 0 < attempt ∧ cancelAt attempt then ⟨RetryOut.ctxErr, cur, []⟩
    else
      match fn attempt with
      | (res, none) => ⟨RetryOut.ok, res, [attempt]⟩
      | (res, some e) =>
        let rest := executeWRAux cancelAt fn (attempt + 1) fuel res (some e)
        ⟨rest.out, rest.value, attempt :: rest.calls⟩

/-- `limiter.Retryer.ExecuteWithResult`; `zero` is the zero value of
`T` (`var result T`). -/
def Retryer.ExecuteWithResult {α ε : Type} (cancelAt : Nat → Bool)
    (fn : Nat → α × Option ε) (zero : α) (maxRetries : Nat) : RetryTraceR α ε :=
  executeWRAux cancelAt fn 0 (maxRetries + 1) zero none

end Limiter

namespace Finder

/-- `types.Technology` (internal/types): `Icon` is never set by the
pipeline and is included for completeness. -/
structure Technology where
  name : String
  version : String
  category : String
  confidence : Int
  description : String
  website : String
  icon : String
deriving Repr, DecidableEq

/-- `types.PortInfo`. -/
structure PortInfo where
  port : Int
  protocol : String
  state : String
  service : String
  banner : String
  version : String
deriving Repr, DecidableEq

/-- `types.SSLInfo`.  `time.Time` fields are nanosecond instants. -/
structure SSLInfo where
  valid : Bool
  expired : Bool
  expiresSoon : Bool
  daysUntilExpiry : Int
  issuer : String
  subject : String
  serialNumber : String
  signatureAlgorithm : String
  publicKeyAlgorithm : String
  keySize : Int
  grade : String
  vulnerabilities : List String
  notBefore : Int
  notAfter : Int
deriving Repr, DecidableEq

/-- `types.Vulnerability` (`CVSS` is a string in the source). -/
structure Vulnerability where
  name : String
  severity : String
  description : String
  cvss : String
  cve : String
  solution : String
  references : List String
deriving Repr, DecidableEq

/-- `types.Result`, the aggregate record for one candidate.  Slice
fields that Go distinguishes as nil-versus-set are `Option` lists
(`none` = the stage never populated the field).  The `Headers`,
`Cookies`, `Redirects`, `DNS`, `GeoLocation` and `Metadata` fields are
omitted: `finder.checkSubdomain` never reads them and `Metadata` holds
`interface{}` values outside this embedding. -/
structure Result where
  subdomain : String
  ip : String
  status : String
  response : String
  title : String
  server : String
  contentLength : Int
  responseTime : Int
  technologies : Option (List Technology)
  ports : Option (List PortInfo)
  ssl : Option SSLInfo
  vulnerabilities : Option (List Vulnerability)
  riskLevel : String
  confidence : Int
  timestamp : Int
deriving Repr, DecidableEq

/-- The zero value `types.Result{}` returned on DNS failure. -/
def Result.empty : Result :=
  { subdomain := "", ip := "", status := "", response := "", title := "",
    server := "", contentLength := 0, responseTime := 0, technologies := none,
    ports := none, ssl := none, vulnerabilities := none, riskLevel := "",
    confidence := 0, timestamp := 0 }

/-- One entry of `portscanner.ScanResult.Ports`
(`portscanner.PortResult`). -/
structure PortResult where
  port : Int
  protocol : String
  state : String
  service : String
  banner : String
deriving Repr, DecidableEq

/-- `portscanner.ScanResult`, the fields `checkSubdomain` reads
(`Host`, `OpenPorts`, `TotalPorts`, `Duration` are never read). -/
structure ScanResult where
  ports : List PortResult
deriving Repr, DecidableEq

/-- `ssl.CertificateInfo`, the fields `checkSubdomain` reads. -/
structure CertificateInfo where
  subject : String
  issuer : String
  serialNumber : String
  notBefore : Int
  notAfter : Int
  signatureAlgorithm : String
  publicKeyAlgorithm : String
  daysUntilExpiry : Int
  isExpired : Bool
  isExpiringSoon : Bool
  vulnerabilities : List String
deriving Repr, DecidableEq

/-- `ssl.SSLResult`, the fields `checkSubdomain` reads. -/
structure SSLResult where
  certificate : CertificateInfo
  isSecure : Bool
  grade : String
deriving Repr, DecidableEq

/-- `techdetect.Technology`. -/
structure TechInfo where
  name : String
  version : String
  category : String
  confidence : Int
  description : String
  website : String
deriving Repr, DecidableEq

/-- `techdetect.TechResult`, the fields `checkSubdomain` reads. -/
structure TechResult where
  technologies : List TechInfo
  server : String
deriving Repr, DecidableEq

/-- `vulnscanner.Vulnerability`. -/
structure VulnResult where
  name : String
  severity : String
  description : String
  cvss : String
  cve : String
  solution : String
  references : List String
deriving Repr, DecidableEq

/-- The network stages consulted by `finder.checkSubdomain`, as pure
oracles over the candidate name whose answers are fixed for a run.
A `none`/`Option` answer is a call whose `err != nil` (for
`QuickScan`, a nil `*ScanResult`).  `httpCheck` is total because
`http.Checker.Check` always returns a pair (a `"N/A"` status on
total failure). -/
structure Oracles where
  resolve : String → Option String
  httpCheck : String → String × String
  quickScan : String → Option ScanResult
  sslAnalyze : String → Int → Option SSLResult
  techDetect : String → Option TechResult
  vulnScan : String → Option (List VulnResult)

/-- `finder.Finder.assessRisk`, translated clause by clause: the
vulnerability-severity loop, the SSL checks, the open-port count, the
status-code switch, and the threshold ladder. -/
def assessRisk (result : Result) : String :=
  let vulnScore := (result.vulnerabilities.getD []).foldl
    (fun acc vuln =>
      acc + (if vuln.severity = "Critical" then 10
        else if vuln.severity = "High" then 7
        else if vuln.severity = "Medium" then 4
        else if vuln.severity = "Low" then 1
        else 0)) 0
  let sslScore := match result.ssl with
    | some ssl =>
        (if ssl.expired then 8 else 0) + (if ssl.expiresSoon then 3 else 0) +
          (if (ssl.vulnerabilities).length > 0 then 5 else 0)
    | none => 0
  let portScore := if (result.ports.getD []).length > 10 then 3 else 0
  let statusScore := if result.status = "403" then 2
    else if result.status = "500" then 5
    else 0
  let riskScore : Int := vulnScore + sslScore + portScore + statusScore
  if riskScore ≥ 15 then "high"
  else if riskScore ≥ 8 then "medium"
  else if riskScore ≥ 3 then "low"
  else "info"

/-- `finder.Finder.calculateConfidence`, translated clause by clause:
base 50, the four additive signals, then the upper clamp at 100. -/
def calculateConfidence (result : Result) : Int :=
  let c1 : Int := 50
  let c2 := c1 + (if result.ip ≠ "" then 20 else 0)
  let c3 := c2 + (if result.status ≠ "" then 15 else 0)
  let c4 := c3 + (if (result.technologies.getD []).length > 0 then 10 else 0)
  let c5 := c4 + (if result.ssl.isSome then 5 else 0)
  if c5 > 100 then 100 else c5

/-- `finder.Finder.checkSubdomain`: the per-candidate probe pipeline.
`startTime` is the entry `time.Now()`, `elapsed` the final
`time.Since(startTime)`.  DNS failure returns the zero `Result`; every
other stage failure leaves its fields untouched. -/
def checkSubdomain (o : Oracles) (startTime elapsed : Int) (subdomain : String) : Result :=
  let result0 : Result := { Result.empty with subdomain := subdomain, timestamp := startTime }
  match o.resolve subdomain with
  | none => Result.empty
  | some ip =>
    let result1 := { result0 with ip := ip }
    let checked := o.httpCheck subdomain
    let result2 := { result1 with status := checked.1, response := checked.2 }
    let result3 := match o.quickScan ip with
      | some portResult =>
          { result2 with ports := some (((portResult.ports.filter
              (fun (p : PortResult) => p.state = "open")).map
              (fun (p : PortResult) => ({ port := p.port,
                                          protocol := p.protocol,
                                          state := p.state,
                                          service := p.service,
                                          banner := p.banner,
                                          version := "" } : PortInfo)))) }
      | none => result2
    let result4 := match o.sslAnalyze subdomain 443 with
      | some sslResult =>
          { result3 with ssl := some ({ valid := sslResult.isSecure,
                                        expired := sslResult.certificate.isExpired,
                                        expiresSoon := sslResult.certificate.isExpiringSoon,
                                        daysUntilExpiry := sslResult.certificate.daysUntilExpiry,
                                        issuer := sslResult.certificate.issuer,
                                        subject := sslResult.certificate.subject,
                                        serialNumber := sslResult.certificate.serialNumber,
                                        signatureAlgorithm := sslResult.certificate.signatureAlgorithm,
                                        publicKeyAlgorithm := sslResult.certificate.publicKeyAlgorithm,
                                        keySize := 0,
                                        grade := sslResult.grade,
                                        vulnerabilities := sslResult.certificate.vulnerabilities,
                                        notBefore := sslResult.certificate.notBefore,
                                        notAfter := sslResult.certificate.notAfter } : SSLInfo) }
      | none => result3
    let result5 := match o.techDetect ("https://" ++ subdomain) with
      | some techResult =>
          { result4 with
              technologies := some (techResult.technologies.map
                (fun (tech : TechInfo) => ({ name := tech.name,
                                             version := tech.version,
                                             category := tech.category,
                                             confidence := tech.confidence,
                                             description := tech.description,
                                             website := tech.website,
                                             icon := "" } : Technology))),
              server := techResult.server }
      | none => result4
    let result6 := match o.vulnScan ("https://" ++ subdomain) with
      | some vulns =>
          { result5 with vulnerabilities := some (vulns.map
              (fun (vuln : VulnResult) => ({ name := vuln.name,
                                             severity := vuln.severity,
                                             description := vuln.description,
                                             cvss := vuln.cvss,
                                             cve := vuln.cve,
                                             solution := vuln.solution,
                                             references := vuln.references } : Vulnerability))) }
      | none => result5
    { result6 with
        riskLevel := assessRisk result6,
        confidence := calculateConfidence result6,
        responseTime := elapsed }

/-- `finder.Finder.Find`: dispatches one pipeline execution per word,
builds each candidate as `word + "." + domain`, and collects exactly
those results whose `Subdomain` field is non-empty (DNS failures
return the zero `Result` and are filtered out).  The channel delivers
results in completion order; the embedding fixes dispatch order, which
is adequate for the multiset/membership claims proved here.  `times`
gives each word's `(startTime, elapsed)` clock readings. -/
def Find (o : Oracles) (times : String → Int × Int) (words : List String)
    (domain : String) : List Result :=
  (words.map (fun w =>
    checkSubdomain o (times w).1 (times w).2 (w ++ "." ++ domain))).filter
    (fun result => result.subdomain ≠ "")

/-- The risk score exactly as the C7 claim words it: the sum of +10
per Critical, +7 per High, +4 per Medium and +1 per Low vulnerability,
+8 if the certificate is expired, +3 if it expires soon, +5 if any
certificate-level vulnerability is present, +3 if more than 10 open
ports, +2 for HTTP status 403 and +5 for status 500.  Written from the
claim, to be compared with `assessRisk`. -/
def claimRiskScore (r : Result) : Int :=
  ((r.vulnerabilities.getD []).map fun v =>
      if v.severity = "Critical" then 10
      else if v.severity = "High" then 7
      else if v.severity = "Medium" then 4
      else if v.severity = "Low" then 1
      else 0).sum
    + (match r.ssl with
       | some ssl =>
           (if ssl.expired then 8 else 0) + (if ssl.expiresSoon then 3 else 0) +
             (if ssl.vulnerabilities.length > 0 then 5 else 0)
       | none => 0)
    + (if (r.ports.getD []).length > 10 then 3 else 0)
    + (if r.status = "403" then 2 else if r.status = "500" then 5 else 0)

/-- The risk level as the C7 claim words it: `high` iff score ≥ 15,
else `medium` iff score ≥ 8, else `low` iff score ≥ 3, else `info`. -/
def claimRiskLevel (r : Result) : String :=
  if claimRiskScore r ≥ 15 then "high"
  else if claimRiskScore r ≥ 8 then "medium"
  else if claimRiskScore r ≥ 3 then "low"
  else "info"

/-- The confidence value as the C8 claim words it: 50, plus 20 if an
IP was resolved, plus 15 if an HTTP status was obtained, plus 10 if
any technology was fingerprinted, plus 5 if certificate data was
obtained, clamped above at 100.  Written from the claim, to be
compared with `calculateConfidence`. -/
def claimConfidence (r : Result) : Int :=
  min (50 + (if r.ip ≠ "" then 20 else 0) + (if r.status ≠ "" then 15 else 0)
      + (if (r.technologies.getD []).length > 0 then 10 else 0)
      + (if r.ssl.isSome then 5 else 0))
    100

/-- A `High`-severity finding, used by the C7 example. -/
def sampleVulnHigh : Vulnerability :=
  { name := "Server Version Disclosure", severity := "High", description := "",
    cvss := "", cve := "", solution := "", references := [] }

/-- A `Critical`-severity finding, used by the C7 example. -/
def sampleVulnCritical : Vulnerability :=
  { name := "SQL Injection", severity := "Critical", description := "",
    cvss := "", cve := "", solution := "", references := [] }

/-- A Result with exactly two High vulnerabilities and no other
scored findings (C7's first example). -/
def resultTwoHigh : Result :=
  { Result.empty with subdomain := "www.example.com",
                      vulnerabilities := some [sampleVulnHigh, sampleVulnHigh] }

/-- `resultTwoHigh` with one Critical vulnerability added (C7's second
example). -/
def resultTwoHighOneCritical : Result :=
  { resultTwoHigh with
      vulnerabilities := some [sampleVulnCritical, sampleVulnHigh, sampleVulnHigh] }

/-- A technology fingerprint, used by the C8 example. -/
def sampleTech : Technology :=
  { name := "nginx", version := "1.24", category := "Web Server",
    confidence := 90, description := "", website := "", icon := "" }

/-- Certificate data, used by the C8 example. -/
def sampleSSL : SSLInfo :=
  { valid := true, expired := false, expiresSoon := false, daysUntilExpiry := 90,
    issuer := "CA", subject := "www.example.com", serialNumber := "01",
    signatureAlgorithm := "SHA256-RSA", publicKeyAlgorithm := "RSA", keySize := 0,
    grade := "A", vulnerabilities := [], notBefore := 0, notAfter := 1 }

/-- A Result with all four confidence signals present (C8's
exactly-100 example). -/
def resultAllSignals : Result :=
  { Result.empty with subdomain := "www.example.com", ip := "93.184.216.34",
                      status := "200", technologies := some [sampleTech],
                      ssl := some sampleSSL }

/-- The phase of one dispatched pipeline goroutine in `Finder.Find`:
`waiting` = spawned, blocked on `semaphore <- struct{}{}`; `holding` =
slot acquired, pipeline executing (the slot is held for the whole of
`checkSubdomain` and released by the deferred receive); `finished` =
slot released, goroutine done. -/
inductive GoPhase where
  | waiting
  | holding
  | finished
deriving Repr, DecidableEq

/-- How many dispatched executions currently hold an admission slot,
i.e. how many pipelines are executing simultaneously. -/
def holdingCount (s : List GoPhase) : Nat :=
  s.countP (fun g => g = GoPhase.holding)

/-- The semaphore-mediated transitions of the `Find` goroutines, for a
buffered channel of capacity `cap`: a `waiting` goroutine may acquire
a slot only while fewer than `cap` slots are held (a send on a full
buffered channel blocks); a `holding` goroutine may finish and release
its slot.  Goroutines are interleaved in any order. -/
inductive SchedStep (cap : Nat) : List GoPhase → List GoPhase → Prop where
  | acquire (s1 s2 : List GoPhase)
      (hroom : holdingCount (s1 ++ GoPhase.waiting :: s2) < cap) :
      SchedStep cap (s1 ++ GoPhase.waiting :: s2) (s1 ++ GoPhase.holding :: s2)
  | release (s1 s2 : List GoPhase) :
      SchedStep cap (s1 ++ GoPhase.holding :: s2) (s1 ++ GoPhase.finished :: s2)

/-- The initial state of a `Find` run with `n` candidate words: the
range loop spawns one goroutine per word up front, so all `n`
executions are dispatched (scheduled) immediately, none yet admitted. -/
def schedStart (n : Nat) : List GoPhase := List.replicate n GoPhase.waiting

/-- States reachable during a `Find` run with `n` candidates and
`config.Threads = cap`. -/
def SchedReachable (cap n : Nat) (s : List GoPhase) : Prop :=
  Relation.ReflTransGen (SchedStep cap) (schedStart n) s

end Finder

namespace Cmd

/-- `config.Config` (internal/config/config.go), the flag-level scan
configuration carrying the `validate` struct tags.  Only the tagged
numeric fields and `Domain` matter to validation; the remaining string
and bool fields are carried through unchanged. -/
structure Config where
  domain : String
  wordlist : String
  threads : Int
  timeout : Int
  rateLimit : Int
  outputFile : String
  retries : Int
  delay : Int
deriving Repr, DecidableEq

/-- The validation ranges declared by the `validate` struct tags on
`config.Config`: `Domain` required, `Threads` in `[1,1000]`, `Timeout`
in `[1,60]`, `RateLimit ≥ 0`, `Retries` in `[0,10]`, `Delay ≥ 0`. -/
def configTagsOk (c : Config) : Bool :=
  c.domain ≠ "" && (1 ≤ c.threads && c.threads ≤ 1000) &&
    (1 ≤ c.timeout && c.timeout ≤ 60) && 0 ≤ c.rateLimit &&
    (0 ≤ c.retries && c.retries ≤ 10) && 0 ≤ c.delay

/-- `config.Loader.ValidateConfig`: runs the `go-playground` validator
over the struct tags of `config.Config` and reports the first
violation as an error.  (Defined in internal/config/loader.go; the
scan path never calls it.) -/
def ValidateConfig (c : Config) : Except String Unit :=
  if configTagsOk c then Except.ok () else Except.error "config validation failed"

/-- Outcome of the `scan` command: either a validation failure before
the Scheduler starts, or a completed scan that ran `Finder.Find` under
the given flag configuration. -/
inductive RunOutcome where
  | validationFailure (msg : String)
  | scanned (cfg : Config) (results : List Finder.Result)
deriving Repr, DecidableEq

/-- Whether the outcome reached the Scheduler (`Finder.Find`). -/
def RunOutcome.ranScheduler : RunOutcome → Bool
  | RunOutcome.scanned _ _ => true
  | RunOutcome.validationFailure _ => false

/-- `cmd.runScan` (the `scan` subcommand handler): builds the
configuration straight from the parsed flag values and unconditionally
constructs the `Finder` and calls `Find` — there is no call to
`ValidateConfig` (or any other validator) anywhere on this path, as
the source shows.  Output-file writing is outside the embedding. -/
def runScan (o : Finder.Oracles) (times : String → Int × Int)
    (words : List String) (cfg : Config) : RunOutcome :=
  RunOutcome.scanned cfg (Finder.Find o times words cfg.domain)

end Cmd

/-! ## Theorems -/

namespace Limiter

theorem tdiv_nonneg_facts (a b : Int) (ha : 0 ≤ a) (hb : 0 < b) :
    Int.tdiv a b = Int.fdiv a b ∧ (b ≤ a → 1 ≤ Int.tdiv a b) ∧ 0 ≤ Int.tdiv a b := by
  obtain ⟨m, rfl⟩ := Int.eq_ofNat_of_zero_le ha
  obtain ⟨k, rfl⟩ := Int.eq_ofNat_of_zero_le (le_of_lt hb)
  have e1 : Int.tdiv (m : Int) (k : Int) = Int.fdiv (m : Int) (k : Int) := by
    cases m <;> cases k <;> simp [Int.tdiv, Int.fdiv]
  have e2 : Int.tdiv (m : Int) (k : Int) = ((m / k : Nat) : Int) := by
    cases m <;> cases k <;> simp [Int.tdiv]
  refine ⟨e1, ?_, ?_⟩
  · intro h
    rw [e2]
    have hk : 0 < k := by exact_mod_cast hb
    have hm : k ≤ m := by exact_mod_cast h
    exact_mod_cast (Nat.one_le_div_iff hk).mpr hm
  · rw [e2]
    exact_mod_cast Nat.zero_le _

/-- C2 (counterexample): the claimed algorithm states that when no
token is available after the refill, `Wait` always blocks on the
cancellable timer and, on expiry, resets `tokens = rate - 1`.  The
code guards that block with `waitTime > 0`: at `rate = 0`,
`interval = 10`, with a full interval already elapsed
(`elapsed = 20`), the code returns `ok` at once even though the
context is cancelled, while the claimed algorithm returns
`cancelled` — so the claim, read as stated for every state, is false
on the code. -/
theorem wait_blocks_claim_counterexample :
    ((NewRateLimiter 0 10 0).Wait ⟨20, true, 20⟩).2 = WaitOutcome.ok ∧
      ((NewRateLimiter 0 10 0).waitClaimed ⟨20, true, 20⟩).2 = WaitOutcome.cancelled ∧
      (NewRateLimiter 0 10 0).Wait ⟨20, true, 20⟩ ≠
        (NewRateLimiter 0 10 0).waitClaimed ⟨20, true, 20⟩ := by
  decide

/-- C2 (amended): for every limiter state with `rate ≥ 1`,
`tokens ≥ 0`, a positive interval and a monotone clock — i.e. every
state such a limiter actually reaches — `Wait` implements exactly the
claimed lazy-refill algorithm: refill by `⌊elapsed / interval⌋` capped
at `rate`, consume-and-return-ok when a token is available, and
otherwise block for `waitTime = interval - elapsed`, returning
`cancelled` if the context fires first and otherwise resetting
`tokens = rate - 1`, `lastRefill = now` and returning `ok`.  (The
`waitTime > 0` guard in the code is unreachable-false only when
`rate ≤ 0`, the case of the counterexample.) -/
theorem wait_eq_waitClaimed_of_pos_rate (rl : RateLimiter) (env : WaitEnv)
    (hrate : 1 ≤ rl.rate) (htok : 0 ≤ rl.tokens) (hint : 0 < rl.interval)
    (hnow : rl.lastTime ≤ env.now) :
    rl.Wait env = rl.waitClaimed env := by
  have helapsed : 0 ≤ env.now - rl.lastTime := by omega
  obtain ⟨hdiv, hge, hnn⟩ :=
    tdiv_nonneg_facts (env.now - rl.lastTime) rl.interval helapsed hint
  simp only [RateLimiter.Wait, RateLimiter.waitClaimed]
  rw [← hdiv]
  by_cases hadd : Int.tdiv (env.now - rl.lastTime) rl.interval > 0
  · simp only [hadd, if_true]
    have hpos : min (rl.tokens + Int.tdiv (env.now - rl.lastTime) rl.interval) rl.rate > 0 := by
      omega
    simp only [hpos, if_true]
  · simp only [hadd, if_false]
    by_cases htok2 : rl.tokens > 0
    · simp only [htok2, if_true]
    · simp only [htok2, if_false]
      have hlt : env.now - rl.lastTime < rl.interval := by
        by_contra hc
        push_neg at hc
        exact hadd (hge hc)
      have hw : rl.interval - (env.now - rl.lastTime) > 0 := by omega
      simp only [hw, if_true]

/-- C2 (witness): the amended equivalence at the concrete state
`rate = 1`, `interval = 10`, one token, clock at `5`. -/
theorem wait_eq_waitClaimed_witness :
    (⟨1, 10, 1, 0⟩ : RateLimiter).Wait ⟨5, false, 5⟩ =
      (⟨1, 10, 1, 0⟩ : RateLimiter).waitClaimed ⟨5, false, 5⟩ :=
  wait_eq_waitClaimed_of_pos_rate ⟨1, 10, 1, 0⟩ ⟨5, false, 5⟩
    (by decide) (by decide) (by decide) (by decide)

/-- C3 (counterexample): with `rate = 0` the invariant
`tokens ∈ [0, rate]` holds after construction but is broken by a
single `Wait`: the blocked path sets `tokens = rate - 1 = -1`.  So the
claim, which asserts preservation for every `rate ≥ 0` and every
operation, is false on the code. -/
theorem tokensInv_violated_at_rate_zero :
    tokensInv (NewRateLimiter 0 10 0) ∧
      ¬ tokensInv ((NewRateLimiter 0 10 0).Wait ⟨0, false, 5⟩).1 ∧
      ((NewRateLimiter 0 10 0).Wait ⟨0, false, 5⟩).1.tokens = -1 := by
  decide

/-- C3 (amended): the invariant `tokens ∈ [0, rate]` holds after
construction for every `rate ≥ 0`, and is preserved by every `Wait`
whenever `rate ≥ 1` (the blocked path's `tokens = rate - 1` then stays
in range).  `SetRate` always preserves the lower bound `tokens ≥ 0`
but preserves the full invariant only when the new rate is at least
the current token count — lowering the rate below `tokens` breaks the
upper bound, as does `Wait` at `rate = 0` (the counterexample). -/
theorem tokensInv_preserved_amended :
    (∀ rate interval now : Int, 0 ≤ rate → tokensInv (NewRateLimiter rate interval now))
    ∧ (∀ (rl : RateLimiter) (env : WaitEnv), 1 ≤ rl.rate → tokensInv rl →
        tokensInv (rl.Wait env).1)
    ∧ (∀ (rl : RateLimiter) (r : Int), tokensInv rl → 0 ≤ (rl.SetRate r).tokens)
    ∧ (∀ (rl : RateLimiter) (r : Int), tokensInv rl → rl.tokens ≤ r →
        tokensInv (rl.SetRate r)) := by
  refine ⟨?_, ?_, ?_, ?_⟩
  · intro rate interval now h
    unfold tokensInv NewRateLimiter
    exact ⟨h, le_refl _⟩
  · intro rl env hrate hinv
    obtain ⟨h0, h1⟩ := hinv
    simp only [RateLimiter.Wait, tokensInv]
    split_ifs with ha hb hc hd <;> simp_all <;> omega
  · intro rl r hinv
    exact hinv.1
  · intro rl r hinv hle
    exact ⟨hinv.1, hle⟩

/-- C3 (witness): the amended preservation at the concrete state
`rate = 2`, two tokens, an immediate second call. -/
theorem tokensInv_preserved_witness :
    tokensInv ((⟨2, 10, 2, 0⟩ : RateLimiter).Wait ⟨0, false, 0⟩).1 :=
  tokensInv_preserved_amended.2.1 ⟨2, 10, 2, 0⟩ ⟨0, false, 0⟩ (by decide) (by decide)

/-- C4 (counterexample): a limiter constructed with `rate = 0` does
return `ok` from `Wait`, contradicting the claim that it never does:
once through the degenerate `waitTime ≤ 0` fall-through (a full
interval already elapsed, even with the context cancelled), and once
through the blocked path after the timer expires. -/
theorem rate_zero_wait_returns_ok :
    ((NewRateLimiter 0 10 0).Wait ⟨15, true, 15⟩).2 = WaitOutcome.ok ∧
      ((NewRateLimiter 0 10 0).Wait ⟨3, false, 13⟩).2 = WaitOutcome.ok := by
  decide

/-- C4 (amended): with `rate = 0` (and `tokens ≤ 0`, true of every
reachable such state) `Wait` never grants via the token path —
`tokens` stays `≤ 0` forever, so the bucket indeed never holds a
token — but the call still returns `ok` rather than blocking forever:
it returns `cancelled` exactly when the context fires during a
positive residual wait, and `ok` otherwise.  Callers that want
`rate = 0` to mean unlimited must still bypass the limiter, though
because it degenerates to roughly one `ok` per interval, not because
`ok` is never returned. -/
theorem rate_zero_wait_amended (rl : RateLimiter) (env : WaitEnv)
    (hrate : rl.rate = 0) (htok : rl.tokens ≤ 0) :
    (rl.Wait env).1.tokens ≤ 0 ∧
      ((rl.Wait env).2 = WaitOutcome.cancelled ↔
        env.cancelFirst = true ∧ 0 < rl.interval - (env.now - rl.lastTime)) := by
  simp only [RateLimiter.Wait]
  split_ifs with ha hb hc hd <;> simp_all <;> omega

/-- C4 (witness): the amended description at `rate = 0`,
`interval = 7`, a cancelled context and `elapsed = 3`. -/
theorem rate_zero_wait_amended_witness :
    ((⟨0, 7, 0, 0⟩ : RateLimiter).Wait ⟨3, true, 3⟩).1.tokens ≤ 0 ∧
      (((⟨0, 7, 0, 0⟩ : RateLimiter).Wait ⟨3, true, 3⟩).2 = WaitOutcome.cancelled ↔
        (⟨3, true, 3⟩ : WaitEnv).cancelFirst = true ∧
          0 < (⟨0, 7, 0, 0⟩ : RateLimiter).interval -
            ((⟨3, true, 3⟩ : WaitEnv).now - (⟨0, 7, 0, 0⟩ : RateLimiter).lastTime)) :=
  rate_zero_wait_amended ⟨0, 7, 0, 0⟩ ⟨3, true, 3⟩ rfl (by decide)

theorem getDelay_eq_min_of_no_overflow (base maxD attempt : Int)
    (hb : 1 ≤ base) (ha : 1 ≤ attempt)
    (hov : base * 2 ^ (attempt - 1).toNat < 2 ^ 63) :
    ExponentialBackoff.GetDelay ⟨base, maxD⟩ attempt =
      min (base * 2 ^ (attempt - 1).toNat) maxD := by
  have hpow : (0:Int) < 2 ^ (attempt - 1).toNat := pow_pos (by norm_num) _
  have h2n : (2:Int) ^ (attempt - 1).toNat < 2 ^ 63 := by nlinarith
  have hn : (attempt - 1).toNat < 63 := by
    by_contra hc
    push_neg at hc
    have : (2:Int) ^ 63 ≤ 2 ^ (attempt - 1).toNat := pow_le_pow_right₀ (by norm_num) hc
    have : (2:Int) ^ 63 < 2 ^ 63 := lt_of_le_of_lt this h2n
    exact absurd this (lt_irrefl _)
  have hval : attempt - 1 = ((attempt - 1).toNat : Int) := (Int.toNat_of_nonneg (by omega)).symm
  have hlt64 : attempt - 1 < 2 ^ 64 := by omega
  have hemod : (attempt - 1) % 2 ^ 64 = attempt - 1 := Int.emod_eq_of_lt (by omega) hlt64
  simp only [ExponentialBackoff.GetDelay, hemod, goShl1]
  have hn64 : (attempt - 1).toNat < 64 := by omega
  simp only [hn64, if_true]
  have hw1 : wrap64 (2 ^ (attempt - 1).toNat) = 2 ^ (attempt - 1).toNat := by
    unfold wrap64
    omega
  rw [hw1]
  have hmul0 : 0 ≤ base * 2 ^ (attempt - 1).toNat := by positivity
  have hw2 : wrap64 (base * 2 ^ (attempt - 1).toNat) = base * 2 ^ (attempt - 1).toNat := by
    unfold wrap64
    omega
  rw [hw2]
  by_cases hcap : base * 2 ^ (attempt - 1).toNat > maxD
  · simp only [hcap, if_true]
    omega
  · simp only [hcap, if_false]
    omega

theorem getDelay_cap_bound (x : Int) (h1 : 1 ≤ x) (h37 : x ≤ 37) :
    (100000000 : Int) * 2 ^ (x - 1).toNat < 2 ^ 63 := by
  have hle : (x - 1).toNat ≤ 36 := by omega
  have hp : (2 : Int) ^ (x - 1).toNat ≤ 2 ^ 36 := pow_le_pow_right₀ (by norm_num) hle
  have := mul_le_mul_of_nonneg_left hp (by norm_num : (0:Int) ≤ 100000000)
  calc (100000000 : Int) * 2 ^ (x - 1).toNat ≤ 100000000 * 2 ^ 36 := this
    _ < 2 ^ 63 := by norm_num

/-- C6 (counterexample): with `base = 100ms`, `maxDelay = 1s`, the
claimed identity `GetDelay(attempt) = min(base * 2^(attempt-1),
maxDelay)` fails at `attempt = 38`: `100ms * 2^37` overflows `int64`
to a negative duration, which the upper-bound-only cap passes through,
so the delay is negative, below `GetDelay 37 = 1s` (not
non-decreasing) and not the claimed `min` (which is `1s`). -/
theorem expBackoff_overflow_counterexample :
    ExponentialBackoff.GetDelay ⟨100000000, 1000000000⟩ 38 = -4702848726509551616 ∧
      ExponentialBackoff.GetDelay ⟨100000000, 1000000000⟩ 38 <
        ExponentialBackoff.GetDelay ⟨100000000, 1000000000⟩ 37 ∧
      ExponentialBackoff.GetDelay ⟨100000000, 1000000000⟩ 38 ≠
        min ((100000000 : Int) * 2 ^ ((38 : Int) - 1).toNat) 1000000000 := by
  decide

/-- C6 (amended): `GetDelay(attempt) = min(base * 2^(attempt-1),
maxDelay)` holds for every `attempt ≥ 1` for which
`base * 2^(attempt-1)` fits below `2^63` (no int64 overflow); with
`base = 100ms`, `maxDelay = 1s` that covers attempts `1..37`, the
delays for attempts 1..6 are 100ms, 200ms, 400ms, 800ms, 1s, 1s, and
on that overflow-free range the sequence is non-decreasing and capped
at `maxDelay`.  Beyond it (attempt ≥ 38 at these parameters) the int64
multiplication wraps and the identity, the cap and the monotonicity
all fail, as the counterexample shows. -/
theorem expBackoff_getDelay_amended :
    (∀ base maxD attempt : Int, 1 ≤ base → 1 ≤ attempt →
        base * 2 ^ (attempt - 1).toNat < 2 ^ 63 →
        ExponentialBackoff.GetDelay ⟨base, maxD⟩ attempt =
          min (base * 2 ^ (attempt - 1).toNat) maxD)
    ∧ (ExponentialBackoff.GetDelay ⟨100000000, 1000000000⟩ 1 = 100000000
      ∧ ExponentialBackoff.GetDelay ⟨100000000, 1000000000⟩ 2 = 200000000
      ∧ ExponentialBackoff.GetDelay ⟨100000000, 1000000000⟩ 3 = 400000000
      ∧ ExponentialBackoff.GetDelay ⟨100000000, 1000000000⟩ 4 = 800000000
      ∧ ExponentialBackoff.GetDelay ⟨100000000, 1000000000⟩ 5 = 1000000000
      ∧ ExponentialBackoff.GetDelay ⟨100000000, 1000000000⟩ 6 = 1000000000)
    ∧ (∀ a b : Int, 1 ≤ a → a ≤ b → b ≤ 37 →
        ExponentialBackoff.GetDelay ⟨100000000, 1000000000⟩ a ≤
          ExponentialBackoff.GetDelay ⟨100000000, 1000000000⟩ b)
    ∧ (∀ a : Int, 1 ≤ a → a ≤ 37 →
        ExponentialBackoff.GetDelay ⟨100000000, 1000000000⟩ a ≤ 1000000000) := by
  refine ⟨?_, by decide, ?_, ?_⟩
  · intro base maxD attempt hb ha hov
    exact getDelay_eq_min_of_no_overflow base maxD attempt hb ha hov
  · intro a b h1 hab h37
    rw [getDelay_eq_min_of_no_overflow 100000000 1000000000 a (by norm_num) h1
        (getDelay_cap_bound a h1 (by omega)),
      getDelay_eq_min_of_no_overflow 100000000 1000000000 b (by norm_num) (by omega)
        (getDelay_cap_bound b (by omega) h37)]
    have hpow : (2 : Int) ^ (a - 1).toNat ≤ 2 ^ (b - 1).toNat :=
      pow_le_pow_right₀ (by norm_num) (by omega)
    have := mul_le_mul_of_nonneg_left hpow (by norm_num : (0:Int) ≤ 100000000)
    omega
  · intro a h1 h37
    rw [getDelay_eq_min_of_no_overflow 100000000 1000000000 a (by norm_num) h1
        (getDelay_cap_bound a h1 h37)]
    omega

/-- C6 (witness): the amended identity at `attempt = 3` with the
100ms/1s parameters. -/
theorem expBackoff_getDelay_witness :
    ExponentialBackoff.GetDelay ⟨100000000, 1000000000⟩ 3 =
      min ((100000000 : Int) * 2 ^ ((3 : Int) - 1).toNat) 1000000000 :=
  expBackoff_getDelay_amended.1 100000000 1000000000 3 (by norm_num) (by norm_num)
    (by decide)

theorem executeAux_step {ε : Type} (c : Nat → Bool) (f : Nat → Option ε)
    (attempt fuel : Nat) (last : Option ε) :
    executeAux c f attempt (fuel + 1) last =
      if 0 < attempt ∧ c attempt = true then ⟨RetryOut.ctxErr, [], []⟩
      else
        match f attempt with
        | none => ⟨RetryOut.ok, [attempt], if 0 < attempt then [attempt] else []⟩
        | some e =>
          let rest := executeAux c f (attempt + 1) fuel (some e)
          ⟨rest.out, attempt :: rest.calls, (if 0 < attempt then [attempt] else []) ++ rest.sleeps⟩ :=
  rfl

theorem executeWRAux_step {α ε : Type} (c : Nat → Bool) (f : Nat → α × Option ε)
    (attempt fuel : Nat) (cur : α) (last : Option ε) :
    executeWRAux c f attempt (fuel + 1) cur last =
      if 0 < attempt ∧ c attempt = true then ⟨RetryOut.ctxErr, cur, []⟩
      else
        match f attempt with
        | (res, none) => ⟨RetryOut.ok, res, [attempt]⟩
        | (res, some e) =>
          let rest := executeWRAux c f (attempt + 1) fuel res (some e)
          ⟨rest.out, rest.value, attempt :: rest.calls⟩ :=
  rfl

theorem executeAux_calls_length_le {ε : Type} (c : Nat → Bool) (f : Nat → Option ε) :
    ∀ (fuel attempt : Nat) (last : Option ε),
      (executeAux c f attempt fuel last).calls.length ≤ fuel := by
  intro fuel
  induction fuel with
  | zero =>
    intro attempt last
    simp [executeAux]
  | succ g ih =>
    intro attempt last
    rw [executeAux_step]
    by_cases h : 0 < attempt ∧ c attempt = true
    · simp [h]
    · rw [if_neg h]
      cases hf : f attempt with
      | none => simp
      | some e =>
        dsimp only
        simp only [List.length_cons]
        have := ih (attempt + 1) (some e)
        omega

theorem executeAux_allFail {ε : Type} (c : Nat → Bool) (f : Nat → Option ε) (es : Nat → ε)
    (hf : ∀ k, f k = some (es k)) (hc : ∀ k, c k = false) :
    ∀ (g attempt : Nat) (last : Option ε),
      (executeAux c f attempt (g + 1) last).out = RetryOut.lastErr (es (attempt + g)) ∧
        (executeAux c f attempt (g + 1) last).calls = List.range' attempt (g + 1) := by
  intro g
  induction g with
  | zero =>
    intro attempt last
    rw [executeAux_step]
    have hcond : ¬ (0 < attempt ∧ c attempt = true) := by simp [hc attempt]
    rw [if_neg hcond, hf attempt]
    simp [executeAux, List.range']
  | succ g ih =>
    intro attempt last
    rw [executeAux_step]
    have hcond : ¬ (0 < attempt ∧ c attempt = true) := by simp [hc attempt]
    rw [if_neg hcond, hf attempt]
    dsimp only
    obtain ⟨ho, hcalls⟩ := ih (attempt + 1) (some (es attempt))
    refine ⟨?_, ?_⟩
    · rw [ho, show attempt + (g + 1) = attempt + 1 + g by omega]
    · rw [hcalls]
      simp [List.range']

theorem executeAux_sleeps_pos {ε : Type} (c : Nat → Bool) (f : Nat → Option ε) :
    ∀ (fuel attempt : Nat) (last : Option ε) (x : Nat),
      x ∈ (executeAux c f attempt fuel last).sleeps → 0 < x := by
  intro fuel
  induction fuel with
  | zero =>
    intro attempt last x hx
    simp [executeAux] at hx
  | succ g ih =>
    intro attempt last x hx
    rw [executeAux_step] at hx
    by_cases h : 0 < attempt ∧ c attempt = true
    · rw [if_pos h] at hx
      simp at hx
    · rw [if_neg h] at hx
      cases hf : f attempt with
      | none =>
        rw [hf] at hx
        dsimp only at hx
        split_ifs at hx with h2
        · simp at hx
          omega
        · simp at hx
      | some e =>
        rw [hf] at hx
        dsimp only at hx
        rw [List.mem_append] at hx
        rcases hx with hx | hx
        · split_ifs at hx with h2
          · simp at hx
            omega
          · simp at hx
        · exact ih (attempt + 1) (some e) x hx

theorem executeWRAux_allFail {α ε : Type} (c : Nat → Bool) (f : Nat → α × Option ε)
    (vs : Nat → α) (es : Nat → ε)
    (hf : ∀ k, f k = (vs k, some (es k))) (hc : ∀ k, c k = false) :
    ∀ (g attempt : Nat) (cur : α) (last : Option ε),
      (executeWRAux c f attempt (g + 1) cur last).out = RetryOut.lastErr (es (attempt + g)) ∧
        (executeWRAux c f attempt (g + 1) cur last).value = vs (attempt + g) := by
  intro g
  induction g with
  | zero =>
    intro attempt cur last
    rw [executeWRAux_step]
    have hcond : ¬ (0 < attempt ∧ c attempt = true) := by simp [hc attempt]
    rw [if_neg hcond, hf attempt]
    simp [executeWRAux]
  | succ g ih =>
    intro attempt cur last
    rw [executeWRAux_step]
    have hcond : ¬ (0 < attempt ∧ c attempt = true) := by simp [hc attempt]
    rw [if_neg hcond, hf attempt]
    dsimp only
    obtain ⟨ho, hv⟩ := ih (attempt + 1) (vs attempt) (some (es attempt))
    refine ⟨?_, ?_⟩
    · rw [ho, show attempt + (g + 1) = attempt + 1 + g by omega]
    · rw [hv, show attempt + (g + 1) = attempt + 1 + g by omega]


theorem executeAux_cancelled {ε : Type} (c : Nat → Bool) (f : Nat → Option ε) (es : Nat → ε) :
    ∀ (fuel a : Nat) (last : Option ε) (j : Nat),
      a ≤ j → j < a + fuel → 1 ≤ j → c j = true →
      (∀ k, a ≤ k → k < j → f k = some (es k)) →
      (∀ k, 1 ≤ k → a ≤ k → k < j → c k = false) →
      (executeAux c f a fuel last).out = RetryOut.ctxErr ∧
        (executeAux c f a fuel last).calls = List.range' a (j - a) := by
  intro fuel
  induction fuel with
  | zero =>
    intro a last j h1 h2 h3 h4 h5 h6
    omega
  | succ g ih =>
    intro a last j haj hlt hj hcj hf hc
    rw [executeAux_step]
    by_cases heq : a = j
    · subst heq
      rw [if_pos ⟨by omega, hcj⟩]
      refine ⟨rfl, ?_⟩
      rw [show a - a = 0 by omega]
      rfl
    · have hcond : ¬ (0 < a ∧ c a = true) := by
        rintro ⟨hpos, hca⟩
        rw [hc a (by omega) (le_refl a) (by omega)] at hca
        exact absurd hca (by simp)
      rw [if_neg hcond, hf a (le_refl a) (by omega)]
      dsimp only
      obtain ⟨ho, hcalls⟩ := ih (a + 1) (some (es a)) j (by omega) (by omega) hj hcj
        (fun k hk1 hk2 => hf k (by omega) hk2)
        (fun k hk1 hk2 hk3 => hc k hk1 (by omega) hk3)
      refine ⟨ho, ?_⟩
      rw [hcalls, show j - a = (j - (a + 1)) + 1 by omega]
      simp [List.range']

theorem executeWRAux_cancelled {α ε : Type} (c : Nat → Bool) (f : Nat → α × Option ε)
    (vs : Nat → α) (es : Nat → ε) :
    ∀ (fuel a : Nat) (cur : α) (last : Option ε) (j : Nat),
      a ≤ j → j < a + fuel → 1 ≤ j → c j = true →
      (∀ k, a ≤ k → k < j → f k = (vs k, some (es k))) →
      (∀ k, 1 ≤ k → a ≤ k → k < j → c k = false) →
      (executeWRAux c f a fuel cur last).out = RetryOut.ctxErr ∧
        (executeWRAux c f a fuel cur last).value = (if a = j then cur else vs (j - 1)) := by
  intro fuel
  induction fuel with
  | zero =>
    intro a cur last j h1 h2 h3 h4 h5 h6
    omega
  | succ g ih =>
    intro a cur last j haj hlt hj hcj hf hc
    rw [executeWRAux_step]
    by_cases heq : a = j
    · subst heq
      rw [if_pos ⟨by omega, hcj⟩, if_pos rfl]
      exact ⟨rfl, rfl⟩
    · have hcond : ¬ (0 < a ∧ c a = true) := by
        rintro ⟨hpos, hca⟩
        rw [hc a (by omega) (le_refl a) (by omega)] at hca
        exact absurd hca (by simp)
      rw [if_neg hcond, hf a (le_refl a) (by omega)]
      dsimp only
      obtain ⟨ho, hval⟩ := ih (a + 1) (vs a) (some (es a)) j (by omega) (by omega) hj hcj
        (fun k hk1 hk2 => hf k (by omega) hk2)
        (fun k hk1 hk2 hk3 => hc k hk1 (by omega) hk3)
      refine ⟨ho, ?_⟩
      rw [hval, if_neg heq]
      by_cases hsucc : a + 1 = j
      · rw [if_pos hsucc, show j - 1 = a by omega]
      · rw [if_neg hsucc]

/-- C5: `Retryer.Execute` invokes `fn` at most `maxRetries + 1` times;
when every attempt fails (no cancellation) it invokes it exactly
`maxRetries + 1` times — attempts `0..maxRetries` in order, hence
exactly 4 for `maxRetries = 3` — and returns the last observed error;
on first-attempt success it returns `ok` immediately, with exactly one
invocation and no backoff sleep at all; every completed backoff sleep
happens before an attempt `> 0`; a cancellation pending at any backoff
sleep `j` (for any `1 ≤ j ≤ maxRetries`, with the earlier attempts
failing and no earlier cancellation) aborts the whole retry with the
cancellation error after exactly the invocations `0..j-1`, for
`Execute` and `ExecuteWithResult` alike; and `ExecuteWithResult`
additionally returns the last observed partial value (also on a
cancelled sleep). -/
theorem retryer_execute_contract :
    (∀ (ε : Type) (c : Nat → Bool) (f : Nat → Option ε) (m : Nat),
        (Retryer.Execute c f m).calls.length ≤ m + 1)
    ∧ (∀ (ε : Type) (c : Nat → Bool) (f : Nat → Option ε) (es : Nat → ε) (m : Nat),
        (∀ k, f k = some (es k)) → (∀ k, c k = false) →
          (Retryer.Execute c f m).out = RetryOut.lastErr (es m) ∧
            (Retryer.Execute c f m).calls = List.range' 0 (m + 1))
    ∧ (∀ (ε : Type) (c : Nat → Bool) (f : Nat → Option ε) (m : Nat),
        f 0 = none → Retryer.Execute c f m = ⟨RetryOut.ok, [0], []⟩)
    ∧ (∀ (ε : Type) (c : Nat → Bool) (f : Nat → Option ε) (m x : Nat),
        x ∈ (Retryer.Execute c f m).sleeps → 0 < x)
    ∧ (∀ (ε : Type) (c : Nat → Bool) (f : Nat → Option ε) (es : Nat → ε) (m j : Nat),
        1 ≤ j → j ≤ m →
        (∀ k, k < j → f k = some (es k)) →
        (∀ k, 1 ≤ k → k < j → c k = false) → c j = true →
          (Retryer.Execute c f m).out = RetryOut.ctxErr ∧
            (Retryer.Execute c f m).calls = List.range' 0 j)
    ∧ (∀ (α ε : Type) (c : Nat → Bool) (f : Nat → α × Option ε) (z : α)
        (vs : Nat → α) (es : Nat → ε) (m : Nat),
        (∀ k, f k = (vs k, some (es k))) → (∀ k, c k = false) →
          (Retryer.ExecuteWithResult c f z m).out = RetryOut.lastErr (es m) ∧
            (Retryer.ExecuteWithResult c f z m).value = vs m)
    ∧ (∀ (α ε : Type) (c : Nat → Bool) (f : Nat → α × Option ε) (z : α)
        (vs : Nat → α) (es : Nat → ε) (m j : Nat),
        1 ≤ j → j ≤ m →
        (∀ k, k < j → f k = (vs k, some (es k))) →
        (∀ k, 1 ≤ k → k < j → c k = false) → c j = true →
          (Retryer.ExecuteWithResult c f z m).out = RetryOut.ctxErr ∧
            (Retryer.ExecuteWithResult c f z m).value = vs (j - 1)) := by
  refine ⟨?_, ?_, ?_, ?_, ?_, ?_, ?_⟩
  · intro ε c f m
    exact executeAux_calls_length_le c f (m + 1) 0 none
  · intro ε c f es m hf hc
    have h := executeAux_allFail c f es hf hc m 0 none
    simpa using h
  · intro ε c f m hf0
    show executeAux c f 0 (m + 1) none = _
    rw [executeAux_step]
    simp [hf0]
  · intro ε c f m x hx
    exact executeAux_sleeps_pos c f (m + 1) 0 none x hx
  · intro ε c f es m j hj hjm hf hc hcj
    have h := executeAux_cancelled c f es (m + 1) 0 none j (by omega) (by omega) hj hcj
      (fun k hk1 hk2 => hf k hk2)
      (fun k hk1 hk2 hk3 => hc k hk1 hk3)
    simpa using h
  · intro α ε c f z vs es m hf hc
    have h := executeWRAux_allFail c f vs es hf hc m 0 z none
    simpa using h
  · intro α ε c f z vs es m j hj hjm hf hc hcj
    have h := executeWRAux_cancelled c f vs es (m + 1) 0 z none j (by omega) (by omega) hj hcj
      (fun k hk1 hk2 => hf k hk2)
      (fun k hk1 hk2 hk3 => hc k hk1 hk3)
    rw [if_neg (by omega : ¬ (0 = j))] at h
    exact h

/-- C5 (witness): a first-attempt success with `maxRetries = 3`
returns `ok` after exactly one invocation and no sleep; and with a
failing operation and the context cancelled at the second backoff
sleep, the retry aborts with the cancellation error after exactly the
invocations 0 and 1. -/
theorem retryer_execute_witness :
    Retryer.Execute (fun _ => false) (fun _ => (none : Option String)) 3 =
      ⟨RetryOut.ok, [0], []⟩ ∧
      (Retryer.Execute (fun k => decide (k = 2)) (fun _ => (some "err" : Option String)) 3).out =
        RetryOut.ctxErr ∧
      (Retryer.Execute (fun k => decide (k = 2)) (fun _ => (some "err" : Option String)) 3).calls =
        List.range' 0 2 := by
  have hcancel := retryer_execute_contract.2.2.2.2.1 String (fun k => decide (k = 2))
    (fun _ => some "err") (fun _ => "err") 3 2 (by omega) (by omega)
    (fun k hk => rfl)
    (fun k hk1 hk2 => by
      have hk : k = 1 := by omega
      subst hk
      rfl)
    (by decide)
  exact ⟨retryer_execute_contract.2.2.1 String (fun _ => false) (fun _ => none) 3 rfl,
    hcancel.1, hcancel.2⟩

end Limiter

namespace Finder

theorem foldl_add_eq_sum_map {α : Type} (f : α → Int) (l : List α) (a : Int) :
    l.foldl (fun acc v => acc + f v) a = a + (l.map f).sum := by
  induction l generalizing a with
  | nil => simp
  | cons x xs ih =>
    simp only [List.foldl_cons, List.map_cons, List.sum_cons, ih (a + f x)]
    ring

/-- C7: the risk scorer is the pure deterministic function the claim
describes: for every Result, `assessRisk` equals the claimed weighted
score pushed through the claimed threshold ladder; and on the claim's
concrete examples, two High findings score 14 and yield `medium`,
and adding one Critical scores 24 and yields `high`. -/
theorem assessRisk_matches_claim :
    (∀ r : Result, assessRisk r = claimRiskLevel r)
    ∧ claimRiskScore resultTwoHigh = 14
    ∧ assessRisk resultTwoHigh = "medium"
    ∧ claimRiskScore resultTwoHighOneCritical = 24
    ∧ assessRisk resultTwoHighOneCritical = "high" := by
  refine ⟨?_, by decide, by decide, by decide, by decide⟩
  intro r
  simp only [assessRisk, claimRiskLevel, claimRiskScore, foldl_add_eq_sum_map, zero_add]

/-- C8: for every Result, `calculateConfidence` equals the claimed
base-50-plus-signals value clamped above at 100; it always lies in
`[50, 100]`; and with all four signals present it is exactly 100. -/
theorem calculateConfidence_matches_claim :
    (∀ r : Result, calculateConfidence r = claimConfidence r)
    ∧ (∀ r : Result, 50 ≤ calculateConfidence r ∧ calculateConfidence r ≤ 100)
    ∧ (∀ r : Result, r.ip ≠ "" → r.status ≠ "" → (r.technologies.getD []).length > 0 →
        r.ssl.isSome → calculateConfidence r = 100)
    ∧ calculateConfidence resultAllSignals = 100 := by
  refine ⟨?_, ?_, ?_, by decide⟩
  · intro r
    simp only [calculateConfidence, claimConfidence]
    split_ifs <;> omega
  · intro r
    simp only [calculateConfidence]
    split_ifs <;> omega
  · intro r hip hst htech hssl
    simp [calculateConfidence, hip, hst, htech, hssl]

/-- C8 (witness): the all-four-signals case at the concrete
`resultAllSignals`. -/
theorem calculateConfidence_witness : calculateConfidence resultAllSignals = 100 :=
  calculateConfidence_matches_claim.2.2.1 resultAllSignals (by decide) (by decide)
    (by decide) (by decide)


theorem append_dot_ne_empty (w d : String) : w ++ "." ++ d ≠ "" := by
  intro h
  have h2 := congrArg String.length h
  simp [String.length_append] at h2
  exact absurd h2.1.2 (by decide)

theorem checkSubdomain_resolved_fields (o : Oracles) (startTime elapsed : Int)
    (sub ip : String) (h : o.resolve sub = some ip) :
    (checkSubdomain o startTime elapsed sub).subdomain = sub ∧
      (checkSubdomain o startTime elapsed sub).ip = ip := by
  simp only [checkSubdomain, h]
  rcases o.quickScan ip with _ | pr <;>
    rcases o.sslAnalyze sub 443 with _ | sr <;>
      rcases o.techDetect ("https://" ++ sub) with _ | tr <;>
        rcases o.vulnScan ("https://" ++ sub) with _ | vr <;>
          simp

/-- C1: `Finder.Find` emits a Result for a candidate `w + "." + domain`
exactly when DNS resolution of that candidate succeeds; on DNS failure
`checkSubdomain` returns the zero Result — the candidate is silently
excluded, with no error surfaced, and since `Find` is a pure function
of the resolver oracle, re-running with the same failing resolver
excludes it again; and when every other stage fails the Result is
still emitted with exactly the DNS fields set and the other fields
absent. -/
theorem find_emits_iff_dns :
    (∀ (o : Oracles) (times : String → Int × Int) (words : List String)
        (domain w : String), w ∈ words →
        ((∃ r ∈ Find o times words domain, r.subdomain = w ++ "." ++ domain) ↔
          (o.resolve (w ++ "." ++ domain)).isSome = true))
    ∧ (∀ (o : Oracles) (startTime elapsed : Int) (sub : String),
        o.resolve sub = none → checkSubdomain o startTime elapsed sub = Result.empty)
    ∧ (∀ (o : Oracles) (startTime elapsed : Int) (sub ip : String),
        o.resolve sub = some ip → o.quickScan ip = none →
        o.sslAnalyze sub 443 = none → o.techDetect ("https://" ++ sub) = none →
        o.vulnScan ("https://" ++ sub) = none →
        (checkSubdomain o startTime elapsed sub).subdomain = sub ∧
          (checkSubdomain o startTime elapsed sub).ip = ip ∧
          (checkSubdomain o startTime elapsed sub).ports = none ∧
          (checkSubdomain o startTime elapsed sub).ssl = none ∧
          (checkSubdomain o startTime elapsed sub).technologies = none ∧
          (checkSubdomain o startTime elapsed sub).vulnerabilities = none) := by
  refine ⟨?_, ?_, ?_⟩
  · intro o times words domain w hw
    constructor
    · rintro ⟨r, hrmem, hrsub⟩
      simp only [Find, List.mem_filter, List.mem_map] at hrmem
      obtain ⟨⟨w2, hw2, hrw⟩, hpred⟩ := hrmem
      cases hres : o.resolve (w2 ++ "." ++ domain) with
      | none =>
        exfalso
        rw [← hrw] at hpred
        rw [show checkSubdomain o (times w2).1 (times w2).2 (w2 ++ "." ++ domain) =
              Result.empty from by simp [checkSubdomain, hres]] at hpred
        simp [Result.empty] at hpred
      | some ip =>
        have hsub := (checkSubdomain_resolved_fields o (times w2).1 (times w2).2 _ ip hres).1
        rw [← hrw] at hrsub
        rw [hsub] at hrsub
        rw [← hrsub, hres]
        rfl
    · intro hres
      obtain ⟨ip, hip⟩ := Option.isSome_iff_exists.mp hres
      refine ⟨checkSubdomain o (times w).1 (times w).2 (w ++ "." ++ domain), ?_, ?_⟩
      · simp only [Find, List.mem_filter, List.mem_map]
        refine ⟨⟨w, hw, rfl⟩, ?_⟩
        have hsub := (checkSubdomain_resolved_fields o (times w).1 (times w).2 _ ip hip).1
        simp [hsub, append_dot_ne_empty]
      · exact (checkSubdomain_resolved_fields o (times w).1 (times w).2 _ ip hip).1
  · intro o startTime elapsed sub h
    simp [checkSubdomain, h]
  · intro o startTime elapsed sub ip hdns hqs hssl htech hvuln
    simp [checkSubdomain, hdns, hqs, hssl, htech, hvuln, Result.empty]

/-- C1 (witness): with a two-word list and a resolver that answers
only for `www.example.com`, the emitted set contains the resolved
candidate and excludes the failing one, and the degraded pipeline
still emits the record. -/
theorem find_emits_iff_dns_witness :
    ((∃ r ∈ Find ⟨fun s => if s = "www.example.com" then some "93.184.216.34" else none,
          fun _ => ("N/A", "No HTTP response"), fun _ => none, fun _ _ => none,
          fun _ => none, fun _ => none⟩ (fun _ => (0, 0)) ["www", "api"] "example.com",
        r.subdomain = "www" ++ "." ++ "example.com") ↔
      ((⟨fun s => if s = "www.example.com" then some "93.184.216.34" else none,
          fun _ => ("N/A", "No HTTP response"), fun _ => none, fun _ _ => none,
          fun _ => none, fun _ => none⟩ : Oracles).resolve
        ("www" ++ "." ++ "example.com")).isSome = true) ∧
    ((∃ r ∈ Find ⟨fun s => if s = "www.example.com" then some "93.184.216.34" else none,
          fun _ => ("N/A", "No HTTP response"), fun _ => none, fun _ _ => none,
          fun _ => none, fun _ => none⟩ (fun _ => (0, 0)) ["www", "api"] "example.com",
        r.subdomain = "api" ++ "." ++ "example.com") ↔
      ((⟨fun s => if s = "www.example.com" then some "93.184.216.34" else none,
          fun _ => ("N/A", "No HTTP response"), fun _ => none, fun _ _ => none,
          fun _ => none, fun _ => none⟩ : Oracles).resolve
        ("api" ++ "." ++ "example.com")).isSome = true) :=
  ⟨find_emits_iff_dns.1 _ (fun _ => (0, 0)) ["www", "api"] "example.com" "www"
      (by simp),
    find_emits_iff_dns.1 _ (fun _ => (0, 0)) ["www", "api"] "example.com" "api"
      (by simp)⟩

end Finder

namespace Finder

theorem holdingCount_append_cons (s1 s2 : List GoPhase) (g : GoPhase) :
    holdingCount (s1 ++ g :: s2) =
      holdingCount s1 + holdingCount s2 + (if g = GoPhase.holding then 1 else 0) := by
  simp only [holdingCount, List.countP_append, List.countP_cons, decide_eq_true_eq]
  split_ifs <;> omega

theorem schedStep_holdingCount_le (cap : Nat) (s t : List GoPhase)
    (h : SchedStep cap s t) (hle : holdingCount s ≤ cap) : holdingCount t ≤ cap := by
  cases h with
  | acquire s1 s2 hroom =>
    rw [holdingCount_append_cons] at hroom ⊢
    simp at hroom ⊢
    omega
  | release s1 s2 =>
    rw [holdingCount_append_cons] at hle ⊢
    simp at hle ⊢
    omega

theorem schedStep_length (cap : Nat) (s t : List GoPhase) (h : SchedStep cap s t) :
    t.length = s.length := by
  cases h with
  | acquire s1 s2 hroom => simp
  | release s1 s2 => simp

/-- C9: in every state reachable during a `Find` run with concurrency
bound `cap` and `n` candidates, at most `cap` pipeline executions hold
an admission slot (execute simultaneously), for any number of
candidates; yet all `n` dispatched executions exist from the start and
throughout — the scheduled population equals the candidate count, not
the concurrency bound. -/
theorem sched_bounded_concurrency :
    (∀ (cap n : Nat) (s : List GoPhase), SchedReachable cap n s → holdingCount s ≤ cap)
    ∧ (∀ (cap n : Nat) (s : List GoPhase), SchedReachable cap n s → s.length = n)
    ∧ (∀ n : Nat, (schedStart n).length = n ∧ holdingCount (schedStart n) = 0) := by
  have hstart : ∀ n : Nat, holdingCount (schedStart n) = 0 := by
    intro n
    induction n with
    | zero => rfl
    | succ k ih =>
      simp only [schedStart, List.replicate, holdingCount, List.countP_cons] at ih ⊢
      simp [ih]
  refine ⟨?_, ?_, ?_⟩
  · intro cap n s h
    induction h with
    | refl => simp [hstart]
    | tail hsteps hstep ih => exact schedStep_holdingCount_le cap _ _ hstep ih
  · intro cap n s h
    induction h with
    | refl => simp [schedStart]
    | tail hsteps hstep ih => rw [schedStep_length cap _ _ hstep, ih]
  · intro n
    exact ⟨by simp [schedStart], hstart n⟩

/-- C9 (witness): with `cap = 1` and two candidates, the state after
one admission is reachable and holds exactly one slot, within the
bound. -/
theorem sched_bounded_concurrency_witness :
    holdingCount [GoPhase.holding, GoPhase.waiting] ≤ 1 :=
  sched_bounded_concurrency.1 1 2 [GoPhase.holding, GoPhase.waiting]
    (Relation.ReflTransGen.single
      (show SchedStep 1 (schedStart 2) [GoPhase.holding, GoPhase.waiting] from
        @SchedStep.acquire 1 [] [GoPhase.waiting] (by decide)))

end Finder

namespace Cmd

/-- C10: the declared configuration ranges reject
`Threads = 2000` (outside `[1, 1000]`) — `Loader.ValidateConfig`
errors on it — yet `runScan` reaches the Scheduler anyway: for every
oracle environment it runs `Finder.Find` under that configuration,
because the scan path never invokes any validator.  The claim (and the
code's own `validate` tags) say such a run is rejected before the
Scheduler starts. -/
theorem runScan_executes_out_of_range :
    configTagsOk ⟨"example.com", "", 2000, 5, 0, "", 3, 0⟩ = false ∧
      ValidateConfig ⟨"example.com", "", 2000, 5, 0, "", 3, 0⟩ =
        Except.error "config validation failed" ∧
      (∀ (o : Finder.Oracles) (times : String → Int × Int) (words : List String),
        (runScan o times words ⟨"example.com", "", 2000, 5, 0, "", 3, 0⟩).ranScheduler = true ∧
          runScan o times words ⟨"example.com", "", 2000, 5, 0, "", 3, 0⟩ =
            RunOutcome.scanned ⟨"example.com", "", 2000, 5, 0, "", 3, 0⟩
              (Finder.Find o times words "example.com")) := by
  refine ⟨by decide, by rfl, ?_⟩
  intro o times words
  exact ⟨rfl, rfl⟩

end Cmd

end SubdomainFinder
